import Mathlib

/-!
Shallow embedding of the `artnet_protocol` Output command codec
(`src/command/output.rs`) and the surrounding conversion framework.

Bytes are modelled as `Nat` (wire bytes are `< 256`; theorems that depend on
this carry it as an explicit hypothesis).  Rust's `std::io::Cursor<&[u8]>` is a
buffer together with a position; `&mut Vec<u8>` output buffers are modelled by
state passing: each `into_buffer` returns the status together with the buffer
as left after the call, mirroring the mutable vector.
-/

namespace Artnet

/-- Rust `std::ops::Range<usize>` as used in `Error::MessageSizeInvalid`:
a half-open interval. `stop` is Rust's exclusive `end` field. -/
structure RustRange where
  start : Nat
  stop : Nat
deriving DecidableEq, Repr

/-- Rust `Range::contains`: `start <= x && x < end` (half-open). -/
def RustRange.contains (r : RustRange) (x : Nat) : Bool :=
  decide (r.start ≤ x) && decide (x < r.stop)

/-- Error cases relevant to the Output codec.  `MessageSizeInvalid` and
`CursorEof` come from the source (`Error` in the crate); the remaining
constructors are modelled from the spec's error-kind list (§7), as the crate's
error module is not under src/. -/
inductive Error where
  | CursorEof : Error
  | MessageSizeInvalid (message : List Nat) (allowed_size : RustRange) : Error
  | SignatureMismatch (header : List Nat) : Error
  | UnsupportedOperation (opcode : Nat) : Error
  | AddressOutOfRange (value : Nat) : Error
deriving DecidableEq, Repr

/-- Rust `std::io::Cursor<&[u8]>`: the underlying buffer (`get_ref`) and the
current position. -/
structure Cursor where
  buf : List Nat
  pos : Nat
deriving DecidableEq, Repr

/-- Reading one byte from a cursor (Rust `read_u8`): fails with `CursorEof`
when no byte remains, otherwise yields the byte and advances the position. -/
def readU8 (c : Cursor) : Except Error (Nat × Cursor) :=
  match c.buf.drop c.pos with
  | b :: _ => .ok (b, ⟨c.buf, c.pos + 1⟩)
  | [] => .error .CursorEof

/-- Reading a 16-bit big-endian integer (Rust `read_u16::<BigEndian>`). -/
def readU16BE (c : Cursor) : Except Error (Nat × Cursor) :=
  match c.buf.drop c.pos with
  | b1 :: b2 :: _ => .ok (b1 * 256 + b2, ⟨c.buf, c.pos + 2⟩)
  | _ => .error .CursorEof

/-- Reading a 16-bit little-endian integer (Rust `read_u16::<LittleEndian>`). -/
def readU16LE (c : Cursor) : Except Error (Nat × Cursor) :=
  match c.buf.drop c.pos with
  | b1 :: b2 :: _ => .ok (b1 + 256 * b2, ⟨c.buf, c.pos + 2⟩)
  | _ => .error .CursorEof

/-- Big-endian byte pair of a 16-bit value (Rust `write_u16::<BigEndian>`). -/
def u16BE (n : Nat) : List Nat :=
  [n / 256 % 256, n % 256]

/-- Little-endian byte pair of a 16-bit value. -/
def u16LE (n : Nat) : List Nat :=
  [n % 256, n / 256 % 256]

/-- The padded DMX payload (`PaddedData` in `output.rs`): a raw byte vector. -/
structure PaddedData where
  inner : List Nat
deriving DecidableEq, Repr

/-- Source `PaddedData::len`. -/
def PaddedData.len (d : PaddedData) : Nat :=
  d.inner.length

/-- Source `PaddedData::len_rounded_up`: the length, incremented once when
odd. -/
def PaddedData.len_rounded_up (d : PaddedData) : Nat :=
  let len := d.inner.length
  if len % 2 ≠ 0 then len + 1 else len

/-- Source `PaddedData::from_cursor`: copies all bytes from the current
position to the end of the underlying buffer.  The cursor position is not
modified by the source (no `set_position` call), which the returned cursor
reflects. -/
def PaddedData.from_cursor (c : Cursor) : Except Error (PaddedData × Cursor) :=
  let inner := c.buf.drop c.pos
  .ok (⟨inner⟩, c)

/-- Source `PaddedData::into_buffer`: rejects empty and oversized payloads with
`MessageSizeInvalid` before touching the buffer, otherwise appends the raw
bytes plus a single zero byte when the raw length is odd. -/
def PaddedData.into_buffer (d : PaddedData) (buffer : List Nat) :
    Except Error Unit × List Nat :=
  let len := d.len
  if len = 0 then
    (.error (.MessageSizeInvalid [] ⟨2, 512⟩), buffer)
  else if len > 512 then
    (.error (.MessageSizeInvalid d.inner ⟨2, 512⟩), buffer)
  else
    let buffer := buffer ++ d.inner
    if len % 2 ≠ 0 then (.ok (), buffer ++ [0]) else (.ok (), buffer)

/-- Source `PaddedData::is_equal`: plain structural equality of the inner
bytes. -/
def PaddedData.is_equal (d other : PaddedData) : Bool :=
  d.inner == other.inner

/-- The derived length field (`BigEndianLength<T>` in `output.rs`): an optional
value filled in only by parsing. -/
structure BigEndianLength where
  parsed_length : Option Nat
deriving DecidableEq, Repr

/-- Source `BigEndianLength::deref`: the parsed value, or 0 when none was
parsed (`unwrap_or(&0)`). -/
def BigEndianLength.deref (l : BigEndianLength) : Nat :=
  l.parsed_length.getD 0

/-- Source `BigEndianLength::from_cursor`: reads a 16-bit big-endian value and
stores it as the parsed length. -/
def BigEndianLength.from_cursor (c : Cursor) :
    Except Error (BigEndianLength × Cursor) :=
  match readU16BE c with
  | .error _ => .error .CursorEof
  | .ok (length, c) => .ok (⟨some length⟩, c)

/-- Source `BigEndianLength::is_equal`: relaxed equality — a parsed and an
unparsed instance compare equal; otherwise the stored options are compared. -/
def BigEndianLength.is_equal (l other : BigEndianLength) : Bool :=
  if (l.parsed_length.isNone && other.parsed_length.isSome)
      || (l.parsed_length.isSome && other.parsed_length.isNone) then
    true
  else
    l.parsed_length == other.parsed_length

/-- The `Output` command body from `output.rs`, fields in declared order.
`version` is the `[u8; 2]` pair; `port_address` is the validated 15-bit
`PortAddress` value. -/
structure Output where
  version : Nat × Nat
  sequence : Nat
  physical : Nat
  port_address : Nat
  length : BigEndianLength
  data : PaddedData
deriving DecidableEq, Repr

/-- Source `BigEndianLength::into_buffer` (for the `Output` context): ignores
the stored parsed value and writes the context payload's `len_rounded_up`,
cast to `u16` (`as u16` truncates modulo 2^16), in big-endian order. -/
def BigEndianLength.into_buffer (_self : BigEndianLength) (buffer : List Nat)
    (context : Output) : Except Error Unit × List Nat :=
  let len := context.data.len_rounded_up % 65536
  (.ok (), buffer ++ u16BE len)

/-- Modelled from the spec: the crate's `ARTNET_PROTOCOL_VERSION` constant is
not under src/; §8's literal scenario fixes the default version bytes to
`0,14`. -/
def ARTNET_PROTOCOL_VERSION : Nat × Nat := (0, 14)

/-- Source `Output::default`: current protocol version, zero sequence and
physical, port address 1, unparsed length, empty payload. -/
def Output.default : Output where
  version := ARTNET_PROTOCOL_VERSION
  sequence := 0
  physical := 0
  port_address := 1
  length := ⟨none⟩
  data := ⟨[]⟩

/-- Modelled from the spec: `PortAddress` lives outside src/. Parse reads the
field's 2-byte little-endian value (byte order fixed by the in-src tests,
which build the wire bytes with `to_le_bytes`) and fails when the top bit is
set (§4.4). -/
def PortAddress.from_cursor (c : Cursor) : Except Error (Nat × Cursor) :=
  match readU16LE c with
  | .error _ => .error .CursorEof
  | .ok (v, c) =>
    if 32768 ≤ v then .error (.AddressOutOfRange v) else .ok (v, c)

/-- Modelled from the spec: `PortAddress` serialization writes the stored
value back in the same 2-byte little-endian order, with no re-validation
(§4.4). -/
def PortAddress.into_buffer (v : Nat) (buffer : List Nat) :
    Except Error Unit × List Nat :=
  (.ok (), buffer ++ u16LE v)

/-- Modelled from the spec: the `data_structure!` macro (not under src/)
composes the fields' parsers in declared order over a shared cursor (§4.1).
The `[u8; 2]`, `u8` and `PortAddress` field parsers are spec-modelled; the
`BigEndianLength` and `PaddedData` parsers are the source ones above. -/
def Output.from_cursor (c : Cursor) : Except Error (Output × Cursor) :=
  match readU8 c with
  | .error e => .error e
  | .ok (v1, c) =>
  match readU8 c with
  | .error e => .error e
  | .ok (v2, c) =>
  match readU8 c with
  | .error e => .error e
  | .ok (seq, c) =>
  match readU8 c with
  | .error e => .error e
  | .ok (phys, c) =>
  match PortAddress.from_cursor c with
  | .error e => .error e
  | .ok (port, c) =>
  match BigEndianLength.from_cursor c with
  | .error e => .error e
  | .ok (len, c) =>
  match PaddedData.from_cursor c with
  | .error e => .error e
  | .ok (data, c) =>
    .ok ({ version := (v1, v2), sequence := seq, physical := phys,
           port_address := port, length := len, data := data }, c)

/-- Modelled from the spec: the macro's serializer writes the fields in
declared order, passing the whole command as context (§4.1). -/
def Output.into_buffer (o : Output) (buffer : List Nat) :
    Except Error Unit × List Nat :=
  let buffer := buffer ++ [o.version.1, o.version.2, o.sequence, o.physical]
  match PortAddress.into_buffer o.port_address buffer with
  | (.error e, buffer) => (.error e, buffer)
  | (.ok _, buffer) =>
  match BigEndianLength.into_buffer o.length buffer o with
  | (.error e, buffer) => (.error e, buffer)
  | (.ok _, buffer) => PaddedData.into_buffer o.data buffer

/-- Modelled from the spec: the fixed 8-byte protocol signature
`"Art-Net\0"` (§6, §8). -/
def ARTNET_SIGNATURE : List Nat :=
  [65, 114, 116, 45, 78, 101, 116, 0]

/-- Modelled from the spec: the operation code selecting the Output body;
§8's literal scenario fixes its wire bytes to `0,80` (16-bit value `0x5000`
in little-endian order). -/
def OP_OUTPUT : Nat := 20480

/-- The command-value sum. Only the Output variant is embedded; the other
bodies reuse the same framework and are outside the claims. -/
inductive ArtCommand where
  | Output (o : Output) : ArtCommand
deriving DecidableEq, Repr

/-- Modelled from the spec: envelope parsing (§4.5) — compare the first 8
bytes against the signature, read the 2-byte operation code, dispatch to the
body parser on the remaining bytes. -/
def ArtCommand.from_buffer (b : List Nat) : Except Error ArtCommand :=
  if b.take 8 = ARTNET_SIGNATURE then
    match readU16LE ⟨b, 8⟩ with
    | .error _ => .error .CursorEof
    | .ok (opcode, c) =>
      if opcode = OP_OUTPUT then
        match Output.from_cursor c with
        | .error e => .error e
        | .ok (o, _) => .ok (.Output o)
      else .error (.UnsupportedOperation opcode)
  else .error (.SignatureMismatch (b.take 8))

/-- Modelled from the spec: envelope serialization (§4.5) — write the
signature and the opcode, then the body; the buffer is returned only on
success (the crate's `into_buffer` yields `Result<Vec<u8>>`). -/
def ArtCommand.into_buffer : ArtCommand → Except Error (List Nat)
  | .Output o =>
    match Output.into_buffer o (ARTNET_SIGNATURE ++ u16LE OP_OUTPUT) with
    | (.ok _, buffer) => .ok buffer
    | (.error e, _) => .error e

/-- The spec's wording for `padded_length()` (§4.2): the raw byte count
rounded up to the nearest even number. -/
def specRoundUpEven (n : Nat) : Nat :=
  2 * ((n + 1) / 2)

theorem len_rounded_up_eq_spec (d : PaddedData) :
    d.len_rounded_up = specRoundUpEven d.len := by
  simp only [PaddedData.len_rounded_up, specRoundUpEven, PaddedData.len]
  split <;> omega

theorem drop_step {l t : List Nat} {n x : Nat}
    (h : l.drop n = x :: t) : l.drop (n + 1) = t := by
  rw [← List.drop_drop, h]
  rfl

/-- C1: serializing an Output's length field writes the payload's raw byte
count rounded up to the nearest even number as a 16-bit big-endian pair, and
the result does not depend on any stored parsed value. -/
theorem C1_length_field_derived (self other : BigEndianLength) (out : Output)
    (buf : List Nat) (h : out.data.len ≤ 512) :
    BigEndianLength.into_buffer self buf out
      = (.ok (), buf ++ u16BE (specRoundUpEven out.data.len))
    ∧ BigEndianLength.into_buffer self buf out
      = BigEndianLength.into_buffer other buf out := by
  refine ⟨?_, rfl⟩
  have hle : specRoundUpEven out.data.len < 65536 := by
    simp only [specRoundUpEven]
    omega
  simp only [BigEndianLength.into_buffer, len_rounded_up_eq_spec,
    Nat.mod_eq_of_lt hle]

theorem C1_length_field_derived_witness :
    BigEndianLength.into_buffer ⟨some 777⟩ []
        { Output.default with data := ⟨[255]⟩ }
      = (.ok (), [] ++ u16BE (specRoundUpEven
          (PaddedData.len ⟨[255]⟩)))
    ∧ BigEndianLength.into_buffer ⟨some 777⟩ []
        { Output.default with data := ⟨[255]⟩ }
      = BigEndianLength.into_buffer ⟨none⟩ []
        { Output.default with data := ⟨[255]⟩ } :=
  C1_length_field_derived ⟨some 777⟩ ⟨none⟩
    { Output.default with data := ⟨[255]⟩ } [] (by decide)

/-- C2: for a payload of raw length 1 to 512, serialization succeeds,
appends exactly the raw bytes in order, then a single zero byte exactly when
the raw length is odd, and the appended run has even length. -/
theorem C2_padding_appends (d : PaddedData) (buf : List Nat)
    (h1 : 1 ≤ d.len) (h2 : d.len ≤ 512) :
    PaddedData.into_buffer d buf
      = (.ok (), buf ++ (d.inner ++ (if d.len % 2 = 1 then [0] else [])))
    ∧ (d.inner ++ (if d.len % 2 = 1 then [0] else [])).length % 2 = 0 := by
  have h0 : ¬ d.len = 0 := by omega
  have h512 : ¬ d.len > 512 := by omega
  have hlen : d.inner.length = d.len := rfl
  constructor
  · simp only [PaddedData.into_buffer, if_neg h0, if_neg h512]
    by_cases hodd : d.len % 2 = 1
    · simp [hodd, List.append_assoc]
    · have : d.len % 2 = 0 := by omega
      simp [this, hodd]
  · by_cases hodd : d.len % 2 = 1 <;> simp [hodd, hlen] <;> omega

theorem C2_padding_appends_witness :
    (PaddedData.into_buffer ⟨[7, 8, 9]⟩ [1]
      = (.ok (), [1] ++ ([7, 8, 9] ++
          (if PaddedData.len ⟨[7, 8, 9]⟩ % 2 = 1 then [0] else [])))
    ∧ (([7, 8, 9] : List Nat) ++
        (if PaddedData.len ⟨[7, 8, 9]⟩ % 2 = 1 then [0] else [])).length % 2
        = 0) :=
  C2_padding_appends ⟨[7, 8, 9]⟩ [1] (by decide) (by decide)

/-- C7: relaxed equality of length fields — an unparsed instance equals any
parsed one in either order; two parsed (or two unparsed) instances compare by
their stored values. -/
theorem C7_relaxed_equality (a b : BigEndianLength) :
    (a.parsed_length = none → ∀ y, b.parsed_length = some y →
      a.is_equal b = true)
    ∧ (∀ x, a.parsed_length = some x → b.parsed_length = none →
      a.is_equal b = true)
    ∧ (∀ x y, a.parsed_length = some x → b.parsed_length = some y →
      (a.is_equal b = true ↔ x = y))
    ∧ (a.parsed_length = none → b.parsed_length = none →
      a.is_equal b = true) := by
  obtain ⟨pa⟩ := a
  obtain ⟨pb⟩ := b
  cases pa <;> cases pb <;>
    simp [BigEndianLength.is_equal]

theorem C7_relaxed_equality_witness :
    BigEndianLength.is_equal ⟨none⟩ ⟨some 5⟩ = true
    ∧ (BigEndianLength.is_equal ⟨some 3⟩ ⟨some 4⟩ = true ↔ 3 = 4) :=
  ⟨(C7_relaxed_equality ⟨none⟩ ⟨some 5⟩).1 rfl 5 rfl,
   (C7_relaxed_equality ⟨some 3⟩ ⟨some 4⟩).2.2.1 3 4 rfl rfl⟩

/-- C10: dereferencing the length field yields 0 when no value was parsed and
the stored value otherwise. -/
theorem C10_deref_total (l : BigEndianLength) :
    (l.parsed_length = none → l.deref = 0)
    ∧ ∀ v, l.parsed_length = some v → l.deref = v := by
  obtain ⟨p⟩ := l
  cases p <;> simp [BigEndianLength.deref]

theorem C10_deref_total_witness :
    BigEndianLength.deref ⟨none⟩ = 0 ∧ BigEndianLength.deref ⟨some 7⟩ = 7 :=
  ⟨(C10_deref_total ⟨none⟩).1 rfl, (C10_deref_total ⟨some 7⟩).2 7 rfl⟩

/-- C4: when the payload's raw byte count is 0 or exceeds 512, the payload
serializer returns `MessageSizeInvalid` with the destination buffer exactly as
it was before the call, and serializing the whole Output command fails with
the same error kind (no buffer is returned). -/
theorem C4_size_error_no_partial_write (o : Output) (buf : List Nat)
    (h : o.data.len = 0 ∨ o.data.len > 512) :
    (∃ msg r, PaddedData.into_buffer o.data buf
        = (.error (.MessageSizeInvalid msg r), buf))
    ∧ (∃ msg r, ArtCommand.into_buffer (.Output o)
        = .error (.MessageSizeInvalid msg r)) := by
  have key : ∀ b : List Nat, ∃ msg r, PaddedData.into_buffer o.data b
      = (.error (.MessageSizeInvalid msg r), b) := by
    intro b
    rcases h with h | h
    · exact ⟨[], ⟨2, 512⟩, by
        simp only [PaddedData.into_buffer, if_pos h]⟩
    · refine ⟨o.data.inner, ⟨2, 512⟩, ?_⟩
      simp only [PaddedData.into_buffer]
      rw [if_neg (by omega), if_pos h]
  refine ⟨key buf, ?_⟩
  obtain ⟨msg, r, hk⟩ := key
    (ARTNET_SIGNATURE ++ u16LE OP_OUTPUT ++
      [o.version.1, o.version.2, o.sequence, o.physical] ++
      u16LE o.port_address ++ u16BE (o.data.len_rounded_up % 65536))
  refine ⟨msg, r, ?_⟩
  simp only [ArtCommand.into_buffer, Output.into_buffer,
    PortAddress.into_buffer, BigEndianLength.into_buffer, hk]

set_option maxRecDepth 8000 in
theorem C4_size_error_no_partial_write_witness :
    ((∃ msg r, PaddedData.into_buffer
        (PaddedData.mk (List.replicate 513 255)) [9]
        = (.error (.MessageSizeInvalid msg r), [9]))
    ∧ (∃ msg r, ArtCommand.into_buffer (.Output
        { Output.default with data := ⟨List.replicate 513 255⟩ })
        = .error (.MessageSizeInvalid msg r))) :=
  C4_size_error_no_partial_write
    { Output.default with data := ⟨List.replicate 513 255⟩ } [9]
    (Or.inr (by norm_num [PaddedData.len]))

set_option maxRecDepth 8000 in
/-- C5: at both size-failing inputs the error does carry the offending bytes
and a range whose endpoints are 2 and 512, but that range is Rust's half-open
`2..512`: it does not contain 512, although a 512-byte payload is accepted by
the serializer, so the carried range is not inclusive of its upper endpoint. -/
theorem C5_error_range_half_open :
    (PaddedData.into_buffer ⟨List.replicate 513 255⟩ []).1
      = .error (.MessageSizeInvalid (List.replicate 513 255) ⟨2, 512⟩)
    ∧ (PaddedData.into_buffer ⟨[]⟩ []).1
      = .error (.MessageSizeInvalid [] ⟨2, 512⟩)
    ∧ RustRange.contains ⟨2, 512⟩ 512 = false
    ∧ (PaddedData.into_buffer ⟨List.replicate 512 255⟩ []).1 = .ok () :=
  ⟨rfl, rfl, rfl, rfl⟩

/-- C6 counterexample: parsing a payload from a cursor at position 0 over
`[1, 2, 3]` returns the cursor still at position 0, which is not the end of
the buffer — the parse does not advance the cursor. -/
theorem C6_counterexample :
    PaddedData.from_cursor ⟨[1, 2, 3], 0⟩
      = .ok (⟨[1, 2, 3]⟩, ⟨[1, 2, 3], 0⟩)
    ∧ (Cursor.mk [1, 2, 3] 0).pos ≠ (Cursor.mk [1, 2, 3] 0).buf.length :=
  ⟨rfl, by decide⟩

/-- C6 (amended): the payload parse succeeds and returns exactly the bytes
from the current position to the end of the buffer, verbatim and in order,
and leaves the cursor unchanged (it does not advance it). -/
theorem C6_parse_rest_verbatim (c : Cursor) (h : c.pos ≤ c.buf.length) :
    PaddedData.from_cursor c = .ok (⟨c.buf.drop c.pos⟩, c)
    ∧ c.buf = c.buf.take c.pos ++ c.buf.drop c.pos
    ∧ (c.buf.drop c.pos).length = c.buf.length - c.pos := by
  exact ⟨rfl, (List.take_append_drop c.pos c.buf).symm, by
    simp [List.length_drop]⟩

theorem C6_parse_rest_verbatim_witness :
    PaddedData.from_cursor ⟨[5, 6, 7], 1⟩
      = .ok (⟨([5, 6, 7] : List Nat).drop 1⟩, ⟨[5, 6, 7], 1⟩)
    ∧ ([5, 6, 7] : List Nat)
        = ([5, 6, 7] : List Nat).take 1 ++ ([5, 6, 7] : List Nat).drop 1
    ∧ (([5, 6, 7] : List Nat).drop 1).length
        = ([5, 6, 7] : List Nat).length - 1 :=
  C6_parse_rest_verbatim ⟨[5, 6, 7], 1⟩ (by decide)

/-- C9: the payload parse is total — it returns `Ok` for every cursor over
the buffer, including one with zero remaining bytes, where it yields the
empty payload; the empty payload is rejected only at serialization time, with
`MessageSizeInvalid`. -/
theorem C9_parse_total (c : Cursor) (h : c.pos ≤ c.buf.length) :
    PaddedData.from_cursor c = .ok (⟨c.buf.drop c.pos⟩, c)
    ∧ (c.pos = c.buf.length → PaddedData.from_cursor c = .ok (⟨[]⟩, c))
    ∧ ∀ buf : List Nat, PaddedData.into_buffer ⟨[]⟩ buf
        = (.error (.MessageSizeInvalid [] ⟨2, 512⟩), buf) := by
  refine ⟨rfl, ?_, fun buf => rfl⟩
  intro hend
  simp only [PaddedData.from_cursor, hend, List.drop_length]

theorem C9_parse_total_witness :
    PaddedData.from_cursor ⟨[7, 8], 2⟩ = .ok (⟨[]⟩, ⟨[7, 8], 2⟩)
    ∧ PaddedData.into_buffer ⟨[]⟩ [3]
        = (.error (.MessageSizeInvalid [] ⟨2, 512⟩), [3]) :=
  ⟨(C9_parse_total ⟨[7, 8], 2⟩ (by decide)).2.1 (by decide),
   (C9_parse_total ⟨[7, 8], 2⟩ (by decide)).2.2 [3]⟩

theorem readU8_ok {b : List Nat} {pos x : Nat} {c2 : Cursor}
    (h : readU8 ⟨b, pos⟩ = .ok (x, c2)) :
    b.drop pos = x :: b.drop (pos + 1) ∧ c2 = Cursor.mk b (pos + 1) := by
  unfold readU8 at h
  rcases hd : b.drop pos with _ | ⟨y, t⟩ <;> rw [hd] at h
  · simp at h
  · simp only [Except.ok.injEq, Prod.mk.injEq] at h
    refine ⟨?_, h.2.symm⟩
    rw [drop_step hd, h.1]

theorem readU16LE_ok {b : List Nat} {pos v : Nat} {c2 : Cursor}
    (h : readU16LE ⟨b, pos⟩ = .ok (v, c2)) :
    ∃ b1 b2, b.drop pos = b1 :: b2 :: b.drop (pos + 2)
      ∧ v = b1 + 256 * b2 ∧ c2 = Cursor.mk b (pos + 2) := by
  unfold readU16LE at h
  rcases hd : b.drop pos with _ | ⟨b1, _ | ⟨b2, t⟩⟩ <;> rw [hd] at h
  · simp at h
  · simp at h
  · simp only [Except.ok.injEq, Prod.mk.injEq] at h
    refine ⟨b1, b2, ?_, h.1.symm, h.2.symm⟩
    have h1 : b.drop (pos + 1) = b2 :: t := drop_step hd
    have h2 : b.drop (pos + 1 + 1) = t := drop_step h1
    have e : pos + 2 = pos + 1 + 1 := rfl
    rw [e, h2]

theorem readU16BE_ok {b : List Nat} {pos v : Nat} {c2 : Cursor}
    (h : readU16BE ⟨b, pos⟩ = .ok (v, c2)) :
    ∃ b1 b2, b.drop pos = b1 :: b2 :: b.drop (pos + 2)
      ∧ v = b1 * 256 + b2 ∧ c2 = Cursor.mk b (pos + 2) := by
  unfold readU16BE at h
  rcases hd : b.drop pos with _ | ⟨b1, _ | ⟨b2, t⟩⟩ <;> rw [hd] at h
  · simp at h
  · simp at h
  · simp only [Except.ok.injEq, Prod.mk.injEq] at h
    refine ⟨b1, b2, ?_, h.1.symm, h.2.symm⟩
    have h1 : b.drop (pos + 1) = b2 :: t := drop_step hd
    have h2 : b.drop (pos + 1 + 1) = t := drop_step h1
    have e : pos + 2 = pos + 1 + 1 := rfl
    rw [e, h2]

theorem PortAddress_from_cursor_ok {b : List Nat} {pos v : Nat} {c2 : Cursor}
    (h : PortAddress.from_cursor ⟨b, pos⟩ = .ok (v, c2)) :
    ∃ b1 b2, b.drop pos = b1 :: b2 :: b.drop (pos + 2)
      ∧ v = b1 + 256 * b2 ∧ v < 32768 ∧ c2 = Cursor.mk b (pos + 2) := by
  unfold PortAddress.from_cursor at h
  cases hLE : readU16LE ⟨b, pos⟩ with
  | error e => rw [hLE] at h; simp at h
  | ok r =>
    obtain ⟨w, c⟩ := r
    rw [hLE] at h
    dsimp only at h
    by_cases hw : 32768 ≤ w
    · rw [if_pos hw] at h; simp at h
    · rw [if_neg hw] at h
      simp only [Except.ok.injEq, Prod.mk.injEq] at h
      obtain ⟨rfl, rfl⟩ := h
      obtain ⟨b1, b2, hd, hv, hc⟩ := readU16LE_ok hLE
      exact ⟨b1, b2, hd, hv, by omega, hc⟩

theorem BigEndianLength_from_cursor_ok {b : List Nat} {pos : Nat}
    {l : BigEndianLength} {c2 : Cursor}
    (h : BigEndianLength.from_cursor ⟨b, pos⟩ = .ok (l, c2)) :
    ∃ b1 b2, b.drop pos = b1 :: b2 :: b.drop (pos + 2)
      ∧ l = BigEndianLength.mk (some (b1 * 256 + b2))
      ∧ c2 = Cursor.mk b (pos + 2) := by
  unfold BigEndianLength.from_cursor at h
  cases hBE : readU16BE ⟨b, pos⟩ with
  | error e => rw [hBE] at h; simp at h
  | ok r =>
    obtain ⟨w, c⟩ := r
    rw [hBE] at h
    dsimp only at h
    simp only [Except.ok.injEq, Prod.mk.injEq] at h
    obtain ⟨hl, hc⟩ := h
    obtain ⟨b1, b2, hd, hv, hc2⟩ := readU16BE_ok hBE
    subst hv
    exact ⟨b1, b2, hd, hl.symm, by rw [← hc, hc2]⟩

theorem Output_from_cursor_ok {b : List Nat} {pos : Nat} {o : Output}
    {cend : Cursor} (h : Output.from_cursor ⟨b, pos⟩ = .ok (o, cend)) :
    ∃ v1 v2 sq ph p1 p2 l1 l2,
      b.drop pos
        = v1 :: v2 :: sq :: ph :: p1 :: p2 :: l1 :: l2 :: b.drop (pos + 8)
      ∧ p1 + 256 * p2 < 32768
      ∧ o = { version := (v1, v2), sequence := sq, physical := ph,
              port_address := p1 + 256 * p2,
              length := ⟨some (l1 * 256 + l2)⟩,
              data := ⟨b.drop (pos + 8)⟩ } := by
  unfold Output.from_cursor at h
  cases h1 : readU8 ⟨b, pos⟩ with
  | error e => rw [h1] at h; simp at h
  | ok r1 =>
  obtain ⟨v1, c1⟩ := r1
  obtain ⟨hd1, hc1⟩ := readU8_ok h1
  subst hc1
  rw [h1] at h
  dsimp only at h
  cases h2 : readU8 ⟨b, pos + 1⟩ with
  | error e => rw [h2] at h; simp at h
  | ok r2 =>
  obtain ⟨v2, c2⟩ := r2
  obtain ⟨hd2, hc2⟩ := readU8_ok h2
  subst hc2
  rw [h2] at h
  dsimp only at h
  cases h3 : readU8 ⟨b, pos + 1 + 1⟩ with
  | error e => rw [h3] at h; simp at h
  | ok r3 =>
  obtain ⟨sq, c3⟩ := r3
  obtain ⟨hd3, hc3⟩ := readU8_ok h3
  subst hc3
  rw [h3] at h
  dsimp only at h
  cases h4 : readU8 ⟨b, pos + 1 + 1 + 1⟩ with
  | error e => rw [h4] at h; simp at h
  | ok r4 =>
  obtain ⟨ph, c4⟩ := r4
  obtain ⟨hd4, hc4⟩ := readU8_ok h4
  subst hc4
  rw [h4] at h
  dsimp only at h
  cases h5 : PortAddress.from_cursor ⟨b, pos + 1 + 1 + 1 + 1⟩ with
  | error e => rw [h5] at h; simp at h
  | ok r5 =>
  obtain ⟨port, c5⟩ := r5
  obtain ⟨p1, p2, hd5, hport, hlt, hc5⟩ := PortAddress_from_cursor_ok h5
  subst hc5
  subst hport
  rw [h5] at h
  dsimp only at h
  cases h6 : BigEndianLength.from_cursor ⟨b, pos + 1 + 1 + 1 + 1 + 2⟩ with
  | error e => rw [h6] at h; simp at h
  | ok r6 =>
  obtain ⟨len, c6⟩ := r6
  obtain ⟨l1, l2, hd6, hlen, hc6⟩ := BigEndianLength_from_cursor_ok h6
  subst hc6
  subst hlen
  rw [h6] at h
  dsimp only at h
  dsimp only [PaddedData.from_cursor] at h
  simp only [Except.ok.injEq, Prod.mk.injEq] at h
  obtain ⟨ho, _⟩ := h
  have e8 : pos + 1 + 1 + 1 + 1 + 2 + 2 = pos + 8 := by omega
  refine ⟨v1, v2, sq, ph, p1, p2, l1, l2, ?_, hlt, ?_⟩
  · rw [hd1, hd2, hd3, hd4, hd5, hd6, e8]
  · rw [← ho, e8]

theorem ArtCommand_from_buffer_ok {b : List Nat} {o : Output}
    (h : ArtCommand.from_buffer b = .ok (.Output o)) :
    b.take 8 = ARTNET_SIGNATURE
    ∧ ∃ o1 o2 cend, b.drop 8 = o1 :: o2 :: b.drop 10
      ∧ o1 + 256 * o2 = OP_OUTPUT
      ∧ Output.from_cursor ⟨b, 10⟩ = .ok (o, cend) := by
  unfold ArtCommand.from_buffer at h
  by_cases hsig : b.take 8 = ARTNET_SIGNATURE
  case neg => rw [if_neg hsig] at h; simp at h
  rw [if_pos hsig] at h
  refine ⟨hsig, ?_⟩
  cases hLE : readU16LE ⟨b, 8⟩ with
  | error e => rw [hLE] at h; simp at h
  | ok r =>
  obtain ⟨op, c⟩ := r
  obtain ⟨o1, o2, hd, hop, hc⟩ := readU16LE_ok hLE
  subst hc
  subst hop
  rw [hLE] at h
  dsimp only at h
  by_cases hOP : o1 + 256 * o2 = OP_OUTPUT
  case neg => rw [if_neg hOP] at h; simp at h
  rw [if_pos hOP] at h
  cases hOC : Output.from_cursor ⟨b, 8 + 2⟩ with
  | error e => rw [hOC] at h; simp at h
  | ok r2 =>
  obtain ⟨o', cend⟩ := r2
  rw [hOC] at h
  dsimp only at h
  simp only [Except.ok.injEq, ArtCommand.Output.injEq] at h
  subst h
  exact ⟨o1, o2, cend, hd, hOP, rfl⟩

theorem PaddedData_into_buffer_ok (d : PaddedData) (buf : List Nat)
    (h1 : 1 ≤ d.len) (h2 : d.len ≤ 512) :
    PaddedData.into_buffer d buf
      = (.ok (), buf ++ (d.inner ++ (if d.len % 2 = 1 then [0] else []))) := by
  have h0 : ¬ d.len = 0 := by omega
  have h512 : ¬ d.len > 512 := by omega
  simp only [PaddedData.into_buffer, if_neg h0, if_neg h512]
  by_cases hodd : d.len % 2 = 1
  · simp [hodd, List.append_assoc]
  · have : d.len % 2 = 0 := by omega
    simp [this, hodd]

/-- C3 counterexample: the 18-byte datagram below carries an even 2-byte
payload `[1, 2]` but a length field of 0; it parses to a valid Output
command, yet serializing that command writes the derived length `[0, 2]`,
so the round trip does not reproduce the original bytes. -/
theorem C3_counterexample :
    ArtCommand.from_buffer
        [65, 114, 116, 45, 78, 101, 116, 0, 0, 80, 0, 14, 0, 0, 1, 0,
         0, 0, 1, 2]
      = .ok (.Output ⟨(0, 14), 0, 0, 1, ⟨some 0⟩, ⟨[1, 2]⟩⟩)
    ∧ PaddedData.len ⟨[1, 2]⟩ % 2 = 0
    ∧ ArtCommand.into_buffer
        (.Output ⟨(0, 14), 0, 0, 1, ⟨some 0⟩, ⟨[1, 2]⟩⟩)
      = .ok [65, 114, 116, 45, 78, 101, 116, 0, 0, 80, 0, 14, 0, 0, 1, 0,
             0, 2, 1, 2]
    ∧ ([65, 114, 116, 45, 78, 101, 116, 0, 0, 80, 0, 14, 0, 0, 1, 0,
        0, 2, 1, 2] : List Nat)
      ≠ [65, 114, 116, 45, 78, 101, 116, 0, 0, 80, 0, 14, 0, 0, 1, 0,
         0, 0, 1, 2] :=
  ⟨rfl, rfl, rfl, by decide⟩

/-- C3 (amended): for every 8-bit byte sequence that parses to a valid
Output command whose payload raw length is in [1, 512] and whose stored
length field equals the payload's padded length, serializing the parsed
command reproduces the original bytes exactly when the payload length is
even, and all original bytes followed by one extra zero byte when it is
odd. -/
theorem C3_roundtrip_amended (b : List Nat) (o : Output)
    (hbytes : ∀ x ∈ b, x < 256)
    (hp : ArtCommand.from_buffer b = .ok (.Output o))
    (hlo : 1 ≤ o.data.len) (hhi : o.data.len ≤ 512)
    (hstored : o.length.parsed_length = some o.data.len_rounded_up) :
    ArtCommand.into_buffer (.Output o)
      = .ok (b ++ (if o.data.len % 2 = 1 then [0] else [])) := by
  obtain ⟨hsig, o1, o2, cend, hd8, hop, hOC⟩ := ArtCommand_from_buffer_ok hp
  obtain ⟨v1, v2, sq, ph, p1, p2, l1, l2, hd10, hlt, ho⟩ :=
    Output_from_cursor_ok hOC
  rw [show (10 : Nat) + 8 = 18 from rfl] at hd10 ho
  subst ho
  have hmem8 : ∀ x ∈ b.drop 8, x < 256 :=
    fun x hx => hbytes x (List.mem_of_mem_drop hx)
  have hmem10 : ∀ x ∈ b.drop 10, x < 256 :=
    fun x hx => hbytes x (List.mem_of_mem_drop hx)
  have hbo1 : o1 < 256 := hmem8 o1 (by rw [hd8]; simp)
  have hbo2 : o2 < 256 := hmem8 o2 (by rw [hd8]; simp)
  have hbp1 : p1 < 256 := hmem10 p1 (by rw [hd10]; simp)
  have hbp2 : p2 < 256 := hmem10 p2 (by rw [hd10]; simp)
  have hbl1 : l1 < 256 := hmem10 l1 (by rw [hd10]; simp)
  have hbl2 : l2 < 256 := hmem10 l2 (by rw [hd10]; simp)
  have hop' : o1 + 256 * o2 = 20480 := hop
  have ho1 : o1 = 0 := by omega
  have ho2 : o2 = 80 := by omega
  subst ho1
  subst ho2
  have hL : l1 * 256 + l2 = PaddedData.len_rounded_up ⟨b.drop 18⟩ := by
    simpa using hstored
  have hb : b = ARTNET_SIGNATURE ++
      0 :: 80 :: v1 :: v2 :: sq :: ph :: p1 :: p2 :: l1 :: l2 ::
        b.drop 18 := by
    conv_lhs => rw [← List.take_append_drop 8 b]
    rw [hsig, hd8, hd10]
  simp only [ArtCommand.into_buffer, Output.into_buffer,
    PortAddress.into_buffer, BigEndianLength.into_buffer]
  rw [PaddedData_into_buffer_ok ⟨b.drop 18⟩ _ hlo hhi]
  have hmod : PaddedData.len_rounded_up ⟨b.drop 18⟩ % 65536
      = l1 * 256 + l2 := by
    rw [← hL]
    omega
  rw [hmod]
  have hLE2 : u16LE (p1 + 256 * p2) = [p1, p2] := by
    have e1 : (p1 + 256 * p2) % 256 = p1 := by omega
    have e2 : (p1 + 256 * p2) / 256 % 256 = p2 := by omega
    simp only [u16LE, e1, e2]
  have hBE2 : u16BE (l1 * 256 + l2) = [l1, l2] := by
    have e1 : (l1 * 256 + l2) / 256 % 256 = l1 := by omega
    have e2 : (l1 * 256 + l2) % 256 = l2 := by omega
    simp only [u16BE, e1, e2]
  rw [hLE2, hBE2]
  conv_rhs => rw [hb]
  simp [ARTNET_SIGNATURE, u16LE, OP_OUTPUT, PaddedData.len]

theorem C3_roundtrip_amended_witness :
    ArtCommand.into_buffer
        (.Output ⟨(0, 14), 0, 0, 1, ⟨some 2⟩, ⟨[9, 9]⟩⟩)
      = .ok ([65, 114, 116, 45, 78, 101, 116, 0, 0, 80, 0, 14, 0, 0, 1, 0,
              0, 2, 9, 9]
          ++ (if PaddedData.len ⟨[9, 9]⟩ % 2 = 1 then [0] else [])) :=
  C3_roundtrip_amended
    [65, 114, 116, 45, 78, 101, 116, 0, 0, 80, 0, 14, 0, 0, 1, 0, 0, 2, 9, 9]
    ⟨(0, 14), 0, 0, 1, ⟨some 2⟩, ⟨[9, 9]⟩⟩
    (by decide) rfl (by decide) (by decide) rfl

/-- C8: the Output command with payload `[255]` and default fields serializes
to the exact 20-byte sequence of the spec's literal scenario. -/
theorem C8_literal_scenario :
    ArtCommand.into_buffer (.Output { Output.default with data := ⟨[255]⟩ })
      = .ok [65, 114, 116, 45, 78, 101, 116, 0, 0, 80, 0, 14, 0, 0, 1, 0,
             0, 2, 255, 0] := by
  rfl

end Artnet
